import Mathlib

/-!
Shallow embedding of the AI study advisor persistence service (src/app.py)
and of its HTTP client wrapper (src/database_client.py).

Modelling conventions, stated once here:

* SQLite tables are Lean lists of row structures; AUTOINCREMENT ids are
  explicit counters carried in the `DB` state.
* Timestamps (both the SQLite CURRENT_TIMESTAMP column defaults and the
  Python `datetime.now().isoformat()` values) are abstract clock ticks of
  type `Nat`, supplied as a parameter to every handler that stamps a row;
  the claims compare timestamps only for equality and relative order.
* The Python `json.dumps` call in the save/update handlers is applied by the
  service exclusively to lists of strings; `jsonDumpsList` embeds it on that
  domain (it matches the CPython output, including the `", "` separator and
  backslash escapes for `"` and `\`, for strings of printable ASCII
  characters).  The `json.loads` call on the stored countries column is
  embedded by `jsonLoadsList`, a character-level acceptor of exactly the
  JSON texts denoting arrays of strings; on every other text it returns
  `none`, which embeds the exception branch of the handler.  The embedding
  agrees with CPython on all texts produced by `jsonDumpsList` and on all
  malformed texts, which are the only inputs the claims quantify over.
* The flask `jsonify(...)` response dictionaries are embedded as `ApiResp`
  records; an absent dictionary key is an `Option` field equal to `none`.
* The file system seen by `DatabaseManager.create_backup` is a list of
  candidate backup directories in probe order, each with a writability flag
  (the outcome of the test-file probe) and a list of file names.
* The HTTP transport underneath `DatabaseClient` is an `HttpOutcome`
  parameter saying whether the request succeeded, failed at the connection,
  failed `raise_for_status`, or failed JSON decoding.
-/

namespace StudentDB

/-! ## JSON encoding of the countries list (json.dumps on a list of strings) -/

/-- Escape of one character inside a JSON string literal, as produced by
CPython `json.dumps` for printable ASCII input. -/
def escChar (c : Char) : List Char :=
  if c = '"' ∨ c = '\\' then ['\\', c] else [c]

/-- Escape of a whole character sequence. -/
def escStrChars : List Char → List Char
  | [] => []
  | c :: cs => escChar c ++ escStrChars cs

/-- One JSON string literal, quotes included. -/
def encOne (s : String) : List Char :=
  '"' :: (escStrChars s.data ++ ['"'])

/-- The remaining items of a JSON array after the first, each preceded by
the CPython default separator `", "`, and the closing bracket. -/
def encTail : List String → List Char
  | [] => [']']
  | s :: l => ',' :: ' ' :: (encOne s ++ encTail l)

/-- Embedding of `json.dumps` on a list of strings. -/
def jsonDumpsList (l : List String) : String :=
  match l with
  | [] => "[]"
  | s :: l => String.mk ('[' :: (encOne s ++ encTail l))

/-! ## JSON decoding (json.loads restricted to arrays of strings) -/

/-- JSON insignificant whitespace. -/
def isWs (c : Char) : Bool :=
  c = ' ' || c = '\t' || c = '\n' || c = '\r'

/-- States of the character-level acceptor for arrays of strings. -/
inductive JState where
  | start
  | itemOrEnd
  | inStr (cur : List Char)
  | inEsc (cur : List Char)
  | afterItem
  | expectItem
  | finished
deriving DecidableEq

/-- One-character-at-a-time acceptor for JSON texts denoting arrays of
strings; `cur` holds the reversed characters of the string literal being
read, `acc` the items read so far. -/
def runJson : JState → List Char → List String → Option (List String)
  | .start, [], _ => none
  | .start, c :: cs, acc =>
    if isWs c then runJson .start cs acc
    else if c = '[' then runJson .itemOrEnd cs acc
    else none
  | .itemOrEnd, [], _ => none
  | .itemOrEnd, c :: cs, acc =>
    if isWs c then runJson .itemOrEnd cs acc
    else if c = '"' then runJson (.inStr []) cs acc
    else if c = ']' then runJson .finished cs acc
    else none
  | .inStr _, [], _ => none
  | .inStr cur, c :: cs, acc =>
    if c = '"' then runJson .afterItem cs (acc ++ [String.mk cur.reverse])
    else if c = '\\' then runJson (.inEsc cur) cs acc
    else runJson (.inStr (c :: cur)) cs acc
  | .inEsc _, [], _ => none
  | .inEsc cur, c :: cs, acc =>
    if c = '"' ∨ c = '\\' then runJson (.inStr (c :: cur)) cs acc
    else none
  | .afterItem, [], _ => none
  | .afterItem, c :: cs, acc =>
    if isWs c then runJson .afterItem cs acc
    else if c = ',' then runJson .expectItem cs acc
    else if c = ']' then runJson .finished cs acc
    else none
  | .expectItem, [], _ => none
  | .expectItem, c :: cs, acc =>
    if isWs c then runJson .expectItem cs acc
    else if c = '"' then runJson (.inStr []) cs acc
    else none
  | .finished, [], acc => some acc
  | .finished, c :: cs, acc =>
    if isWs c then runJson .finished cs acc
    else none

/-- Embedding of `json.loads` on the countries column: `some l` when the
text is a JSON array of strings, `none` when loading raises. -/
def jsonLoadsList (s : String) : Option (List String) :=
  runJson .start s.data []

/-- Decoding of the stored countries column as done in both read handlers
of src/app.py: `countries = []`, then `if row[14]:` (None and the empty
string are falsy) a `json.loads` guarded by a bare `except` that resets
the result to the empty list. -/
def decodeCountries (v : Option String) : List String :=
  match v with
  | none => []
  | some s => if s = "" then [] else (jsonLoadsList s).getD []

/-! ## Data model: rows of the tables the claims touch -/

/-- One row of the `user_profiles` table (columns in schema order;
`user_role` is declared NOT NULL, the other detail columns are nullable;
`countries` holds the JSON text written by the save/update handlers). -/
structure ProfileRow where
  id : Nat
  profile_id : String
  user_id : String
  user_role : String
  student_name : Option String := none
  student_email : Option String := none
  parent_name : Option String := none
  parent_email : Option String := none
  relationship : Option String := none
  child_name : Option String := none
  child_email : Option String := none
  citizenship : Option String := none
  gpa : Option Rat := none
  degree : Option String := none
  countries : Option String := none
  budget : Option Int := none
  target_intake : Option String := none
  created_at : Nat
  updated_at : Nat
deriving DecidableEq

/-- One row of the `chat_messages` table.  The four NOT NULL columns are
typed `String`; `language` is written by the save handler with the Python
default `'zh'`. -/
structure MsgRow where
  id : Nat
  profile_id : String
  user_id : String
  message_type : String
  message_content : String
  language : String
  user_role : Option String := none
  created_at : Nat
deriving DecidableEq

/-- The database state the claims touch: the two tables plus their
AUTOINCREMENT counters.  (The remaining tables of init_database are not
referenced by any claim.) -/
structure DB where
  profiles : List ProfileRow := []
  messages : List MsgRow := []
  nextProfileId : Nat := 1
  nextMsgId : Nat := 1
deriving DecidableEq

/-- The profile dictionary built by `get_user_profile` and
`get_user_profiles` from a row: every column verbatim, except `countries`
which is decoded from JSON. -/
structure ProfileOut where
  id : Nat
  profile_id : String
  user_id : String
  user_role : String
  student_name : Option String := none
  student_email : Option String := none
  parent_name : Option String := none
  parent_email : Option String := none
  relationship : Option String := none
  child_name : Option String := none
  child_email : Option String := none
  citizenship : Option String := none
  gpa : Option Rat := none
  degree : Option String := none
  countries : List String := []
  budget : Option Int := none
  target_intake : Option String := none
  created_at : Nat
  updated_at : Nat
deriving DecidableEq

/-- Row-to-response translation shared by both profile read handlers. -/
def rowToProfileOut (r : ProfileRow) : ProfileOut :=
  { id := r.id
    profile_id := r.profile_id
    user_id := r.user_id
    user_role := r.user_role
    student_name := r.student_name
    student_email := r.student_email
    parent_name := r.parent_name
    parent_email := r.parent_email
    relationship := r.relationship
    child_name := r.child_name
    child_email := r.child_email
    citizenship := r.citizenship
    gpa := r.gpa
    degree := r.degree
    countries := decodeCountries r.countries
    budget := r.budget
    target_intake := r.target_intake
    created_at := r.created_at
    updated_at := r.updated_at }

/-- A flask `jsonify` response together with its HTTP status: `ok` is the
envelope flag, and each remaining dictionary key is an `Option` field that
is `none` exactly when the handler omits the key. -/
structure ApiResp (α : Type) where
  status : Nat
  ok : Bool
  error : Option String := none
  message : Option String := none
  data : Option α := none
deriving DecidableEq

/-- Response of every handler when the module-level `db` handle is `None`. -/
def dbUnavailableResp {α : Type} : ApiResp α :=
  { status := 500, ok := false, error := some "Database not available" }

/-! ## Sorting helpers (ORDER BY created_at DESC, and Python sorted) -/

/-- Insertion step of the descending sort used to embed
`ORDER BY created_at DESC`. -/
def insertDesc {α : Type} (key : α → Nat) (x : α) : List α → List α
  | [] => [x]
  | y :: l => if key y ≤ key x then x :: y :: l else y :: insertDesc key x l

/-- Descending insertion sort by a numeric key. -/
def sortByDesc {α : Type} (key : α → Nat) : List α → List α
  | [] => []
  | x :: l => insertDesc key x (sortByDesc key l)

/-- Boolean strict lexicographic order on character lists by code point,
the order Python `sorted` uses on the backup file names. -/
def strLtB : List Char → List Char → Bool
  | [], [] => false
  | [], _ :: _ => true
  | _ :: _, [] => false
  | a :: as, b :: bs =>
    if a.toNat < b.toNat then true
    else if b.toNat < a.toNat then false
    else strLtB as bs

/-- Insertion step of the ascending string sort embedding Python
`sorted`. -/
def insertStr (x : String) : List String → List String
  | [] => [x]
  | y :: l => if strLtB x.data y.data then x :: y :: l else y :: insertStr x l

/-- Ascending insertion sort on strings, embedding Python `sorted`. -/
def sortStr : List String → List String
  | [] => []
  | x :: l => insertStr x (sortStr l)

/-- Boolean list-prefix test, embedding Python `str.startswith`. -/
def isPrefixB : List Char → List Char → Bool
  | [], _ => true
  | _ :: _, [] => false
  | p :: ps, c :: cs => p == c && isPrefixB ps cs

/-! ## Backup routine (DatabaseManager.create_backup) -/

/-- One candidate backup directory: whether the test-file probe succeeds,
and the file names currently inside it. -/
structure BackupDir where
  writable : Bool
  files : List String
deriving DecidableEq

/-- The fixed stem of every backup file name. -/
def backupStem : String := "ai_study_advisor_backup_"

/-- Name of the backup file for one `%Y%m%d_%H%M%S` timestamp. -/
def backupName (ts : String) : String := backupStem ++ ts ++ ".db"

/-- The `f.startswith('ai_study_advisor_backup_')` filter of the rotation
loop. -/
def isBackupFile (f : String) : Bool := isPrefixB backupStem.data f.data

/-- Embedding of `shutil.copy2` into the directory listing: the name is
added unless already present (a copy onto an existing name overwrites). -/
def addFile (files : List String) (f : String) : List String :=
  if files.contains f then files else files ++ [f]

/-- The rotation step of create_backup: sort the matching names, delete
all but the last five (`backup_files[:-5]`). -/
def rotateBackups (files : List String) : List String :=
  let matching := sortStr (files.filter isBackupFile)
  let toDelete := matching.take (matching.length - 5)
  files.filter (fun f => !(toDelete.contains f))

/-- Embedding of `DatabaseManager.create_backup`: probe the candidate
directories in order, and in the first writable one copy the database to a
timestamped name and rotate; when no candidate is writable the routine logs
and returns with the file system unchanged.  The surrounding
`try/except` swallows every error, which the embedding reflects by being a
total function. -/
def createBackupFS (ts : String) : List BackupDir → List BackupDir
  | [] => []
  | d :: ds =>
    if d.writable then
      { d with files := rotateBackups (addFile d.files (backupName ts)) } :: ds
    else
      d :: createBackupFS ts ds

/-- Six (or n) successive backup invocations, one per timestamp. -/
def runBackups (tss : List String) (dirs : List BackupDir) : List BackupDir :=
  tss.foldl (fun fs ts => createBackupFS ts fs) dirs

/-! ## Profile handlers -/

/-- The JSON body accepted by POST /api/profiles.  `profile_id` and
`user_id` are accessed with `profile_data[...]` (the claims presuppose a
body that has them); every other field is read with `.get`, so absence is
`none`. -/
structure ProfileInput where
  profile_id : String
  user_id : String
  user_role : Option String := none
  student_name : Option String := none
  student_email : Option String := none
  parent_name : Option String := none
  parent_email : Option String := none
  relationship : Option String := none
  child_name : Option String := none
  child_email : Option String := none
  citizenship : Option String := none
  gpa : Option Rat := none
  degree : Option String := none
  countries : Option (List String) := none
  budget : Option Int := none
  target_intake : Option String := none
deriving DecidableEq

/-- Embedding of `save_user_profile` (POST /api/profiles): encode the
countries list to JSON (`.get('countries', [])`), INSERT OR REPLACE the row
keyed on the unique `profile_id` (the replaced row gets a fresh
autoincrement id and fresh created_at, since neither column is in the
INSERT column list), then call create_backup.  A `None` value in the NOT
NULL `user_role` column makes the INSERT raise, which the bare `except`
turns into a 500 envelope with nothing committed. -/
def saveUserProfile (now : Nat) (ts : String) (input : ProfileInput)
    (db? : Option DB) (fs : List BackupDir) :
    Option DB × List BackupDir × ApiResp Unit :=
  match db? with
  | none => (none, fs, dbUnavailableResp)
  | some db =>
    match input.user_role with
    | none =>
      (some db, fs,
       { status := 500, ok := false,
         error := some "NOT NULL constraint failed: user_profiles.user_role" })
    | some role =>
      let row : ProfileRow :=
        { id := db.nextProfileId
          profile_id := input.profile_id
          user_id := input.user_id
          user_role := role
          student_name := input.student_name
          student_email := input.student_email
          parent_name := input.parent_name
          parent_email := input.parent_email
          relationship := input.relationship
          child_name := input.child_name
          child_email := input.child_email
          citizenship := input.citizenship
          gpa := input.gpa
          degree := input.degree
          countries := some (jsonDumpsList (input.countries.getD []))
          budget := input.budget
          target_intake := input.target_intake
          created_at := now
          updated_at := now }
      let db' : DB :=
        { db with
          profiles :=
            db.profiles.filter (fun r => !(r.profile_id == input.profile_id)) ++ [row]
          nextProfileId := db.nextProfileId + 1 }
      (some db', createBackupFS ts fs,
       { status := 200, ok := true, message := some "Profile saved successfully" })

/-- Embedding of `get_user_profile` (GET /api/profiles/{profile_id}):
fetchone on the unique business key, 404 envelope without a data key when
no row matches. -/
def getUserProfile (pid : String) (db? : Option DB) : ApiResp ProfileOut :=
  match db? with
  | none => dbUnavailableResp
  | some db =>
    match db.profiles.find? (fun r => r.profile_id == pid) with
    | some r => { status := 200, ok := true, data := some (rowToProfileOut r) }
    | none => { status := 404, ok := false, error := some "Profile not found" }

/-- Embedding of `get_user_profiles` (GET /api/users/{user_id}/profiles):
all rows of the user, ORDER BY created_at DESC, each decoded like the
single-profile read. -/
def getUserProfiles (uid : String) (db? : Option DB) : ApiResp (List ProfileOut) :=
  match db? with
  | none => dbUnavailableResp
  | some db =>
    let rows := sortByDesc (fun r => r.created_at)
      (db.profiles.filter (fun r => r.user_id == uid))
    { status := 200, ok := true, data := some (rows.map rowToProfileOut) }

/-- The JSON body accepted by PUT /api/profiles/{profile_id}: each
recognized key is an `Option` field, `none` meaning the key is absent from
the body (`'x' in data` false). -/
structure UpdateData where
  student_name : Option String := none
  student_email : Option String := none
  parent_name : Option String := none
  parent_email : Option String := none
  relationship : Option String := none
  child_name : Option String := none
  child_email : Option String := none
  citizenship : Option String := none
  gpa : Option Rat := none
  degree : Option String := none
  countries : Option (List String) := none
  budget : Option Int := none
  target_intake : Option String := none
  user_role : Option String := none
deriving DecidableEq

/-- Present-field override: a key present in the body replaces the stored
value, an absent key leaves it. -/
def updOpt {α : Type} (new old : Option α) : Option α :=
  match new with
  | some v => some v
  | none => old

/-- Effect of the dynamically built UPDATE statement on one matching row:
every field whose key is present is set (countries through `json.dumps`),
and `updated_at = ?` is always appended to the field list. -/
def applyUpdate (d : UpdateData) (now : Nat) (r : ProfileRow) : ProfileRow :=
  { r with
    student_name := updOpt d.student_name r.student_name
    student_email := updOpt d.student_email r.student_email
    parent_name := updOpt d.parent_name r.parent_name
    parent_email := updOpt d.parent_email r.parent_email
    relationship := updOpt d.relationship r.relationship
    child_name := updOpt d.child_name r.child_name
    child_email := updOpt d.child_email r.child_email
    citizenship := updOpt d.citizenship r.citizenship
    gpa := updOpt d.gpa r.gpa
    degree := updOpt d.degree r.degree
    countries :=
      match d.countries with
      | some l => some (jsonDumpsList l)
      | none => r.countries
    budget := updOpt d.budget r.budget
    target_intake := updOpt d.target_intake r.target_intake
    user_role := d.user_role.getD r.user_role
    updated_at := now }

/-- Embedding of `update_user_profile` (PUT /api/profiles/{profile_id}):
the field list is never empty because the timestamp is always appended, so
the UPDATE always executes against the rows matching the key, and the
handler answers 200 regardless of how many rows matched. -/
def updateUserProfile (now : Nat) (pid : String) (d : UpdateData)
    (db? : Option DB) : Option DB × ApiResp Unit :=
  match db? with
  | none => (none, dbUnavailableResp)
  | some db =>
    (some { db with
        profiles := db.profiles.map
          (fun r => if r.profile_id == pid then applyUpdate d now r else r) },
     { status := 200, ok := true, message := some "Profile updated successfully" })

/-! ## Chat message handlers -/

/-- The JSON body accepted by POST /api/messages; every key is read with
`.get`, so each field is optional. -/
structure MsgInput where
  profile_id : Option String := none
  user_id : Option String := none
  message_type : Option String := none
  message_content : Option String := none
  language : Option String := none
  user_role : Option String := none
deriving DecidableEq

/-- Embedding of `save_chat_message` (POST /api/messages): plain INSERT of
one row; a missing value in any of the four NOT NULL columns makes the
INSERT raise, which the bare `except` turns into a 500 envelope with
nothing committed. -/
def saveChatMessage (now : Nat) (input : MsgInput) (db? : Option DB) :
    Option DB × ApiResp Unit :=
  match db? with
  | none => (none, dbUnavailableResp)
  | some db =>
    match input.profile_id, input.user_id, input.message_type, input.message_content with
    | some pid, some uid, some mt, some mc =>
      let row : MsgRow :=
        { id := db.nextMsgId
          profile_id := pid
          user_id := uid
          message_type := mt
          message_content := mc
          language := input.language.getD "zh"
          user_role := input.user_role
          created_at := now }
      (some { db with messages := db.messages ++ [row], nextMsgId := db.nextMsgId + 1 },
       { status := 200, ok := true, message := some "Message saved successfully" })
    | _, _, _, _ =>
      (some db,
       { status := 500, ok := false,
         error := some "NOT NULL constraint failed: chat_messages" })

/-- Embedding of `get_chat_messages` (GET /api/messages/{profile_id}):
`request.args.get('limit', 100, type=int)` defaults the limit to 100, then
the rows of the profile are returned ORDER BY created_at DESC LIMIT n.
The response dictionaries repeat the row columns verbatim. -/
def getChatMessages (pid : String) (limit? : Option Nat) (db? : Option DB) :
    ApiResp (List MsgRow) :=
  match db? with
  | none => dbUnavailableResp
  | some db =>
    let n := limit?.getD 100
    { status := 200, ok := true,
      data := some ((sortByDesc (fun m => m.created_at)
        (db.messages.filter (fun m => m.profile_id == pid))).take n) }

/-- Sequence of POST /api/messages calls, each with its own clock tick,
threading the database state. -/
def postAllMessages (items : List (Nat × MsgInput)) (db? : Option DB) : Option DB :=
  items.foldl (fun acc it => (saveChatMessage it.1 it.2 acc).1) db?

/-- Embedding of the POST /api/backup route handler: delegate to
create_backup (which cannot raise) and answer 200. -/
def createBackupRoute (ts : String) (db? : Option DB) (fs : List BackupDir) :
    List BackupDir × ApiResp Unit :=
  match db? with
  | none => (fs, dbUnavailableResp)
  | some _ =>
    (createBackupFS ts fs,
     { status := 200, ok := true, message := some "Backup created successfully" })

/-! ## Client wrapper (src/database_client.py) -/

/-- Decoded JSON values, for the bodies the client sends and receives. -/
inductive JVal where
  | null
  | bool (b : Bool)
  | num (n : Int)
  | str (s : String)
  | arr (items : List JVal)
  | obj (fields : List (String × JVal))

/-- Outcome of one HTTP exchange underneath `_make_request`: either the
decoded body, or the step at which the `requests` call raised (connection
failure, `raise_for_status` on a non-2xx answer, or `.json()` decoding),
with the text `str(e)` of the exception. -/
inductive HttpOutcome where
  | success (body : JVal)
  | connError (msg : String)
  | httpError (msg : String)
  | decodeError (msg : String)

/-- Exception text of a failed outcome, `none` on success. -/
def failMsg : HttpOutcome → Option String
  | .success _ => none
  | .connError m => some m
  | .httpError m => some m
  | .decodeError m => some m

/-- The `{'ok': False, 'error': str(e)}` dictionary the except branches
build. -/
def errEnvelope (msg : String) : JVal :=
  .obj [("ok", .bool false), ("error", .str msg)]

/-- HTTP methods as dispatched inside `_make_request`. -/
inductive HttpMethod where
  | get
  | post
  | put
  | other (s : String)

/-- Embedding of `DatabaseClient._make_request`: an unsupported method
raises ValueError inside the try, which the `except Exception` turns into
the error envelope; otherwise the outcome of the exchange is returned
as-is on success and enveloped on any failure. -/
def makeRequest (m : HttpMethod) (endpoint : String) (outcome : HttpOutcome) : JVal :=
  match m with
  | .other s => errEnvelope ("Unsupported HTTP method: " ++ s)
  | _ =>
    match outcome with
    | .success body => body
    | .connError msg => errEnvelope msg
    | .httpError msg => errEnvelope msg
    | .decodeError msg => errEnvelope msg

/-- Client method `health_check`. -/
def clientHealthCheck (o : HttpOutcome) : JVal :=
  makeRequest .get "/health" o

/-- Client method `save_user`. -/
def clientSaveUser (user_data : JVal) (o : HttpOutcome) : JVal :=
  makeRequest .post "/api/users" o

/-- Client method `get_user`. -/
def clientGetUser (user_id : String) (o : HttpOutcome) : JVal :=
  makeRequest .get ("/api/users/" ++ user_id) o

/-- Client method `get_user_profiles`. -/
def clientGetUserProfiles (user_id : String) (o : HttpOutcome) : JVal :=
  makeRequest .get ("/api/users/" ++ user_id ++ "/profiles") o

/-- Client method `save_user_profile`. -/
def clientSaveUserProfile (profile_data : JVal) (o : HttpOutcome) : JVal :=
  makeRequest .post "/api/profiles" o

/-- Client method `get_user_profile`. -/
def clientGetUserProfile (profile_id : String) (o : HttpOutcome) : JVal :=
  makeRequest .get ("/api/profiles/" ++ profile_id) o

/-- Client method `update_user_profile`. -/
def clientUpdateUserProfile (profile_id : String) (d : JVal) (o : HttpOutcome) : JVal :=
  makeRequest .put ("/api/profiles/" ++ profile_id) o

/-- Client method `save_chat_message`. -/
def clientSaveChatMessage (message_data : JVal) (o : HttpOutcome) : JVal :=
  makeRequest .post "/api/messages" o

/-- Client method `get_chat_messages`. -/
def clientGetChatMessages (profile_id : String) (lim : Nat) (o : HttpOutcome) : JVal :=
  makeRequest .get ("/api/messages/" ++ profile_id) o

/-- Client method `save_usage_stat`. -/
def clientSaveUsageStat (stat_data : JVal) (o : HttpOutcome) : JVal :=
  makeRequest .post "/api/stats" o

/-- Client method `get_usage_stats`. -/
def clientGetUsageStats (days : Nat) (o : HttpOutcome) : JVal :=
  makeRequest .get "/api/stats" o

/-- Client method `create_backup`. -/
def clientCreateBackup (o : HttpOutcome) : JVal :=
  makeRequest .post "/api/backup" o

/-- Python runtime errors reachable from `DatabaseClient.__init__`. -/
inductive PyErr where
  | nameError (name : String)
deriving DecidableEq

/-- Embedding of `DatabaseClient.__init__`, faithful to the module as
written: the module imports requests, json and logging but never `os`, so
the expression `base_url or os.getenv('DATABASE_SERVICE_URL', ...)`
raises NameError for the name `os` whenever the left operand is falsy
(absent, None, or the empty string); the `env` parameter records the
intended environment lookup, which the code never reaches. -/
def clientInitBaseUrl (base_url : Option String)
    (env : String → Option String) : Except PyErr String :=
  match base_url with
  | some u => if u = "" then .error (.nameError "os") else .ok u
  | none => .error (.nameError "os")

/-! ## Predicates used by claim statements, and concrete fixtures -/

/-- Rows whose countries column is NULL or holds a text on which
`json.loads` raises. -/
def badCountries (v : Option String) : Prop :=
  v = none ∨ ∃ s, v = some s ∧ jsonLoadsList s = none

/-- A POST /api/messages item whose body names the given profile and
carries all four NOT NULL columns. -/
def completeForB (pid : String) (it : Nat × MsgInput) : Bool :=
  it.2.profile_id == some pid && it.2.user_id.isSome
    && it.2.message_type.isSome && it.2.message_content.isSome

/-- Concrete request body for the C1 witness. -/
def c1Input : ProfileInput :=
  { profile_id := "p1", user_id := "u1", user_role := some "student",
    countries := some ["US", "UK"] }

/-- Concrete message body for the C3 witness. -/
def c3Item : MsgInput :=
  { profile_id := some "p1", user_id := some "u1",
    message_type := some "user", message_content := some "hello" }

/-- One hundred and fifty timed posts of `c3Item`. -/
def c3Items : List (Nat × MsgInput) :=
  (List.range 150).map (fun i => (i, c3Item))

/-- Six strictly increasing `%Y%m%d_%H%M%S` stamps for the C4 witness. -/
def c4Stamps : List String :=
  ["20250101_000001", "20250101_000002", "20250101_000003",
   "20250101_000004", "20250101_000005", "20250101_000006"]

/-- A one-profile database for the C6 witness. -/
def c6Db : DB :=
  { profiles := [{ id := 1, profile_id := "p1", user_id := "u1",
                   user_role := "student", created_at := 0, updated_at := 0 }] }

/-- A stored row whose countries column holds malformed JSON, for the C8
witness. -/
def c8Row : ProfileRow :=
  { id := 1, profile_id := "p1", user_id := "u1", user_role := "student",
    countries := some "oops", created_at := 0, updated_at := 0 }

/-- Database holding `c8Row`, for the C8 witness. -/
def c8Db : DB := { profiles := [c8Row] }

/-! ## Basic lemmas about the JSON embedding -/

theorem strMk_data (s : String) : String.mk s.data = s := by
  cases s
  rfl

theorem strData_mk (cs : List Char) : (String.mk cs).data = cs := rfl

/-- Reading back an escaped string body: the acceptor consumes the escaped
characters of `s` and the closing quote, pushing the accumulated literal. -/
theorem runJson_inStr (s : List Char) :
    ∀ (cur cs : List Char) (acc : List String),
      runJson (.inStr cur) (escStrChars s ++ '"' :: cs) acc
        = runJson .afterItem cs (acc ++ [String.mk (cur.reverse ++ s)]) := by
  induction s with
  | nil =>
    intro cur cs acc
    simp [escStrChars, runJson]
  | cons c s ih =>
    intro cur cs acc
    by_cases hc : c = '"' ∨ c = '\\'
    · have h1 : escChar c = ['\\', c] := by simp [escChar, hc]
      simp only [escStrChars, h1, List.cons_append, List.nil_append]
      rw [runJson]
      rw [if_neg (show ¬ ('\\' : Char) = '"' by decide),
          if_pos (show ('\\' : Char) = '\\' from rfl)]
      rw [runJson]
      rw [if_pos hc]
      rw [ih (c :: cur)]
      simp [List.append_assoc]
    · push_neg at hc
      have h1 : escChar c = [c] := by simp [escChar, hc.1, hc.2]
      simp only [escStrChars, h1, List.cons_append, List.nil_append]
      rw [runJson]
      simp only [if_neg hc.1, if_neg hc.2]
      rw [ih (c :: cur)]
      simp [List.append_assoc]

/-- Reading back the encoded items after the first: each `", "` separator
and item is consumed, and the closing bracket accepts. -/
theorem runJson_encTail (l : List String) :
    ∀ acc, runJson .afterItem (encTail l) acc = some (acc ++ l) := by
  induction l with
  | nil =>
    intro acc
    have st : ∀ a, runJson .afterItem [']'] a = some a := fun _ => rfl
    simp [encTail, st]
  | cons s l ih =>
    intro acc
    have st1 : ∀ (r : List Char) a, runJson .afterItem (',' :: r) a
        = runJson .expectItem r a := fun _ _ => rfl
    have st2 : ∀ (r : List Char) a, runJson .expectItem (' ' :: r) a
        = runJson .expectItem r a := fun _ _ => rfl
    have st3 : ∀ (r : List Char) a, runJson .expectItem ('"' :: r) a
        = runJson (.inStr []) r a := fun _ _ => rfl
    simp only [encTail, encOne, List.cons_append, List.nil_append,
      List.append_assoc, List.singleton_append]
    rw [st1, st2, st3, runJson_inStr, ih]
    simp [strMk_data]

/-- The JSON round trip of the countries list: decoding what the save
handler encodes gives back the same list, order preserved. -/
theorem jsonLoads_dumps (l : List String) :
    jsonLoadsList (jsonDumpsList l) = some l := by
  cases l with
  | nil => rfl
  | cons s l =>
    have st0 : ∀ (r : List Char) a, runJson .start ('[' :: r) a
        = runJson .itemOrEnd r a := fun _ _ => rfl
    have st1 : ∀ (r : List Char) a, runJson .itemOrEnd ('"' :: r) a
        = runJson (.inStr []) r a := fun _ _ => rfl
    show runJson .start ('[' :: (encOne s ++ encTail l)) [] = some (s :: l)
    simp only [encOne, List.cons_append, List.nil_append,
      List.append_assoc, List.singleton_append]
    rw [st0, st1, runJson_inStr, runJson_encTail]
    simp [strMk_data]

/-- The encoded text is never the empty string, so the `if row[14]:`
truthiness guard lets it through. -/
theorem jsonDumpsList_ne_empty (l : List String) : jsonDumpsList l ≠ "" := by
  cases l with
  | nil => decide
  | cons s l =>
    intro h
    have h2 := congrArg String.data h
    simp [jsonDumpsList, strData_mk] at h2

/-- The read-side decoding inverts the write-side encoding. -/
theorem decodeCountries_dumps (l : List String) :
    decodeCountries (some (jsonDumpsList l)) = l := by
  simp [decodeCountries, jsonLoads_dumps, jsonDumpsList_ne_empty l]

/-- fetchone on a key over rows purged of that key plus the fresh row
finds the fresh row. -/
theorem find?_filter_append {α : Type} (p : α → Bool) (l : List α) (x : α)
    (hx : p x = true) :
    ((l.filter fun a => !(p a)) ++ [x]).find? p = some x := by
  induction l with
  | nil => simp [List.find?, hx]
  | cons a l ih =>
    by_cases ha : p a
    · simp [List.filter_cons, ha, ih]
    · simp only [List.filter_cons, ha, Bool.not_false, if_pos]
      simp [List.find?, ha, ih]

/-! ## Claim C1 -/

/-- C1: a profile saved via POST /api/profiles with a countries list is
returned by a subsequent GET /api/profiles/(profile_id) with the same
countries list, order preserved: the save handler encodes the list to JSON
text before storage and the fetch handler decodes it back.  The hypothesis
`hascii` marks the domain (printable ASCII items) on which `jsonDumpsList`
coincides character for character with CPython `json.dumps`; the proof
itself holds for all lists. -/
theorem c1_save_then_get_countries (now : Nat) (ts : String)
    (input : ProfileInput) (db : DB) (fs : List BackupDir)
    (l : List String) (role : String)
    (hc : input.countries = some l)
    (hr : input.user_role = some role)
    (hascii : ∀ s ∈ l, ∀ c ∈ s.data, 32 ≤ c.toNat ∧ c.toNat < 127) :
    ∃ db₁, (saveUserProfile now ts input (some db) fs).1 = some db₁ ∧
      (saveUserProfile now ts input (some db) fs).2.2.ok = true ∧
      ∃ out, (getUserProfile input.profile_id (some db₁)).data = some out ∧
        out.countries = l := by
  simp only [saveUserProfile, hr]
  refine ⟨_, rfl, trivial, ?_⟩
  dsimp only [getUserProfile]
  rw [@find?_filter_append ProfileRow
    (fun r => r.profile_id == input.profile_id) db.profiles _ (by simp)]
  refine ⟨_, rfl, ?_⟩
  simp [rowToProfileOut, hc, decodeCountries_dumps]

/-- Witness for C1: saving and re-reading countries US, UK. -/
theorem c1_save_then_get_countries_witness :
    (c1Input.countries = some ["US", "UK"])
    ∧ (c1Input.user_role = some "student")
    ∧ (∀ s ∈ ["US", "UK"], ∀ c ∈ s.data, 32 ≤ c.toNat ∧ c.toNat < 127)
    ∧ (∃ db₁, (saveUserProfile 0 "ts" c1Input (some ({} : DB)) []).1 = some db₁ ∧
        (saveUserProfile 0 "ts" c1Input (some ({} : DB)) []).2.2.ok = true ∧
        ∃ out, (getUserProfile c1Input.profile_id (some db₁)).data = some out ∧
          out.countries = ["US", "UK"]) :=
  ⟨rfl, rfl, by decide,
    c1_save_then_get_countries 0 "ts" c1Input {} [] ["US", "UK"] "student"
      rfl rfl (by decide)⟩

/-! ## Claims C2 and C7 (partial update) -/

/-- C2: a PUT /api/profiles/(profile_id) whose body contains only a budget
field maps every row matching the key to the same row with exactly the
budget column and the updated_at timestamp replaced, leaves every other
row and column unchanged, and answers success. -/
theorem c2_budget_only_update (now : Nat) (pid : String) (db : DB) (b : Int) :
    updateUserProfile now pid ({ budget := some b } : UpdateData) (some db)
      = (some { db with profiles := db.profiles.map (fun r => if r.profile_id == pid then { r with budget := some b, updated_at := now } else r) },
         { status := 200, ok := true, message := some "Profile updated successfully" }) := by
  rfl

/-- C7: a PUT /api/profiles/(profile_id) whose body contains no recognized
field still executes the UPDATE (the timestamp field is always appended),
refreshing exactly the updated_at column of the matching rows, and answers
success. -/
theorem c7_empty_update (now : Nat) (pid : String) (db : DB) :
    updateUserProfile now pid ({} : UpdateData) (some db)
      = (some { db with profiles := db.profiles.map (fun r => if r.profile_id == pid then { r with updated_at := now } else r) },
         { status := 200, ok := true, message := some "Profile updated successfully" }) := by
  rfl

/-! ## Claim C6 -/

/-- C6: GET /api/profiles/(profile_id) for a key with no matching row
answers the envelope with ok false, the not-found error text, HTTP status
404, and no data field. -/
theorem c6_get_missing_profile (db : DB) (pid : String)
    (h : ∀ r ∈ db.profiles, r.profile_id ≠ pid) :
    getUserProfile pid (some db)
      = { status := 404, ok := false, error := some "Profile not found" } := by
  have hf : db.profiles.find? (fun r => r.profile_id == pid) = none := by
    apply List.find?_eq_none.mpr
    intro r hr
    simp [h r hr]
  simp [getUserProfile, hf]

/-- Witness for C6 on a concrete one-row database and an unknown key. -/
theorem c6_get_missing_profile_witness :
    (∀ r ∈ c6Db.profiles, r.profile_id ≠ "nope")
    ∧ getUserProfile "nope" (some c6Db)
        = { status := 404, ok := false, error := some "Profile not found" } :=
  ⟨by decide, c6_get_missing_profile c6Db "nope" (by decide)⟩

/-! ## Claim C8 -/

/-- Missing and malformed countries texts decode to the empty list in both
read handlers. -/
theorem decodeCountries_bad {v : Option String} (h : badCountries v) :
    decodeCountries v = [] := by
  rcases h with h | ⟨s, rfl, hs⟩
  · simp [h, decodeCountries]
  · by_cases he : s = ""
    · simp [decodeCountries, he]
    · simp [decodeCountries, he, hs]

theorem mem_insertDesc {α : Type} (key : α → Nat) (x a : α) (l : List α) :
    a ∈ insertDesc key x l ↔ a = x ∨ a ∈ l := by
  induction l with
  | nil => simp [insertDesc]
  | cons y l ih =>
    by_cases h : key y ≤ key x
    · simp [insertDesc, h]
    · simp [insertDesc, h, ih]
      tauto

theorem mem_sortByDesc {α : Type} (key : α → Nat) (a : α) (l : List α) :
    a ∈ sortByDesc key l ↔ a ∈ l := by
  induction l with
  | nil => simp [sortByDesc]
  | cons x l ih =>
    simp [sortByDesc, mem_insertDesc, ih]

/-- C8: a stored profile row whose countries column is NULL or holds
malformed JSON is returned by GET /api/profiles/(profile_id) and by
GET /api/users/(user_id)/profiles with countries equal to the empty list
rather than an error. -/
theorem c8_bad_countries_empty (db : DB) (pid uid : String) (r : ProfileRow)
    (hbad : badCountries r.countries) :
    ((db.profiles.find? (fun q => q.profile_id == pid) = some r) →
       (getUserProfile pid (some db)).data = some (rowToProfileOut r)
         ∧ (rowToProfileOut r).countries = [])
    ∧ ((r ∈ db.profiles ∧ r.user_id = uid) →
       ∃ outs, (getUserProfiles uid (some db)).data = some outs
         ∧ rowToProfileOut r ∈ outs ∧ (rowToProfileOut r).countries = []) := by
  constructor
  · intro hf
    refine ⟨?_, ?_⟩
    · simp [getUserProfile, hf]
    · simp [rowToProfileOut, decodeCountries_bad hbad]
  · rintro ⟨hmem, huid⟩
    refine ⟨_, rfl, ?_, ?_⟩
    · apply List.mem_map_of_mem
      rw [mem_sortByDesc]
      simp [List.mem_filter, hmem, huid]
    · simp [rowToProfileOut, decodeCountries_bad hbad]

/-- Witness for C8 on a stored row holding the malformed text oops. -/
theorem c8_bad_countries_empty_witness :
    badCountries c8Row.countries
    ∧ (getUserProfile "p1" (some c8Db)).data = some (rowToProfileOut c8Row)
    ∧ (rowToProfileOut c8Row).countries = []
    ∧ ∃ outs, (getUserProfiles "u1" (some c8Db)).data = some outs
        ∧ rowToProfileOut c8Row ∈ outs := by
  have hbad : badCountries c8Row.countries := Or.inr ⟨"oops", rfl, by decide⟩
  have h := c8_bad_countries_empty c8Db "p1" "u1" c8Row hbad
  obtain ⟨outs, h1, h2, h3⟩ := h.2 ⟨by decide, rfl⟩
  exact ⟨hbad, (h.1 (by decide)).1, (h.1 (by decide)).2, outs, h1, h2⟩

/-! ## Claim C3 -/

theorem insertDesc_append {α : Type} (key : α → Nat) (x : α) (l : List α)
    (h : ∀ y ∈ l, key x < key y) : insertDesc key x l = l ++ [x] := by
  induction l with
  | nil => rfl
  | cons y l ih =>
    have hy : ¬ (key y ≤ key x) := by
      have := h y (List.mem_cons_self y l)
      omega
    simp [insertDesc, hy, ih (fun z hz => h z (List.mem_cons_of_mem _ hz))]

/-- Sorting a strictly ascending list by descending key reverses it. -/
theorem sortByDesc_ascending {α : Type} (key : α → Nat) (l : List α)
    (h : l.Pairwise (fun a b => key a < key b)) :
    sortByDesc key l = l.reverse := by
  induction l with
  | nil => rfl
  | cons x l ih =>
    rw [List.pairwise_cons] at h
    rw [sortByDesc, ih h.2, insertDesc_append]
    · simp
    · intro y hy
      exact h.1 y (List.mem_reverse.mp hy)

/-- Posting a sequence of complete message bodies for a profile succeeds
throughout and appends their timestamps, in posting order, to the stored
rows of that profile. -/
theorem postAllMessages_filter (pid : String) :
    ∀ (items : List (Nat × MsgInput)) (db : DB),
      (∀ it ∈ items, completeForB pid it = true) →
      ∃ db', postAllMessages items (some db) = some db' ∧
        (db'.messages.filter (fun m => m.profile_id == pid)).map (fun m => m.created_at)
          = (db.messages.filter (fun m => m.profile_id == pid)).map (fun m => m.created_at)
            ++ items.map (fun it => it.1) := by
  intro items
  induction items with
  | nil =>
    intro db _
    exact ⟨db, rfl, by simp⟩
  | cons it items ih =>
    intro db h
    obtain ⟨t, inp⟩ := it
    have hit := h (t, inp) (List.mem_cons_self _ _)
    simp only [completeForB, Bool.and_eq_true] at hit
    obtain ⟨⟨⟨hpid, hu⟩, hmt⟩, hmc⟩ := hit
    have hpid' : inp.profile_id = some pid := by simpa using hpid
    obtain ⟨uid, huid⟩ := Option.isSome_iff_exists.mp hu
    obtain ⟨mt, hmt'⟩ := Option.isSome_iff_exists.mp hmt
    obtain ⟨mc, hmc'⟩ := Option.isSome_iff_exists.mp hmc
    have hstep : (saveChatMessage t inp (some db)).1
        = some { db with
            messages := db.messages ++
              [{ id := db.nextMsgId, profile_id := pid, user_id := uid,
                 message_type := mt, message_content := mc,
                 language := inp.language.getD "zh", user_role := inp.user_role,
                 created_at := t }],
            nextMsgId := db.nextMsgId + 1 } := by
      simp [saveChatMessage, hpid', huid, hmt', hmc']
    obtain ⟨db', hrun, hkeys⟩ := ih _ (fun z hz => h z (List.mem_cons_of_mem _ hz))
    refine ⟨db', ?_, ?_⟩
    · simpa [postAllMessages, hstep] using hrun
    · rw [hkeys]
      simp [List.filter_append, List.append_assoc]

/-- C3: after 150 chat messages with strictly increasing creation times
have been posted for one profile, GET /api/messages/(profile_id) with
limit 100 answers success with exactly 100 messages ordered newest-first
by creation time, and an absent limit parameter behaves as limit 100. -/
theorem c3_messages_limit (db₀ : DB) (items : List (Nat × MsgInput)) (pid : String)
    (hempty : db₀.messages.filter (fun m => m.profile_id == pid) = [])
    (hcomp : ∀ it ∈ items, completeForB pid it = true)
    (hlen : items.length = 150)
    (hinc : (items.map (fun it => it.1)).Pairwise (fun a b => a < b)) :
    ∃ db', postAllMessages items (some db₀) = some db' ∧
      getChatMessages pid none (some db') = getChatMessages pid (some 100) (some db') ∧
      (getChatMessages pid (some 100) (some db')).ok = true ∧
      ∃ out, (getChatMessages pid (some 100) (some db')).data = some out ∧
        out.length = 100 ∧
        (out.map (fun m => m.created_at)).Pairwise (fun a b => b < a) := by
  obtain ⟨db', hrun, hkeys⟩ := postAllMessages_filter pid items db₀ hcomp
  rw [hempty] at hkeys
  simp only [List.map_nil, List.nil_append] at hkeys
  refine ⟨db', hrun, rfl, ?_⟩
  have hpw : (db'.messages.filter (fun m => m.profile_id == pid)).Pairwise
      (fun a b => a.created_at < b.created_at) := by
    have h2 := hinc
    rw [← hkeys] at h2
    exact List.pairwise_map.mp h2
  have hsort := sortByDesc_ascending (fun m : MsgRow => m.created_at) _ hpw
  have hL : (db'.messages.filter (fun m => m.profile_id == pid)).length = 150 := by
    have h3 := congrArg List.length hkeys
    simpa [hlen] using h3
  refine ⟨rfl, (db'.messages.filter (fun m : MsgRow => m.profile_id == pid)).reverse.take 100, ?_, ?_, ?_⟩
  · simp [getChatMessages, hsort]
  · simp [List.length_take, hL]
  · apply List.pairwise_map.mpr
    apply List.Pairwise.sublist (List.take_sublist _ _)
    apply List.pairwise_reverse.mpr
    exact hpw

set_option maxRecDepth 10000 in
/-- Witness for C3: 150 concrete posts at ticks 0 to 149. -/
theorem c3_messages_limit_witness :
    (({} : DB).messages.filter (fun m => m.profile_id == "p1") = [])
    ∧ (∀ it ∈ c3Items, completeForB "p1" it = true)
    ∧ c3Items.length = 150
    ∧ (c3Items.map (fun it => it.1)).Pairwise (fun a b => a < b)
    ∧ ∃ db', postAllMessages c3Items (some ({} : DB)) = some db' ∧
        getChatMessages "p1" none (some db') = getChatMessages "p1" (some 100) (some db') ∧
        (getChatMessages "p1" (some 100) (some db')).ok = true ∧
        ∃ out, (getChatMessages "p1" (some 100) (some db')).data = some out ∧
          out.length = 100 ∧
          (out.map (fun m => m.created_at)).Pairwise (fun a b => b < a) :=
  ⟨rfl, by decide, by decide, by decide,
    c3_messages_limit {} c3Items "p1" rfl (by decide) (by decide) (by decide)⟩

/-! ## Claim C4 -/

/-- String append acts as list append on the character data. -/
theorem strData_append (s t : String) : (s ++ t).data = s.data ++ t.data := by
  cases s
  cases t
  rfl

/-- The lexicographic order is irreflexive. -/
theorem strLtB_irrefl : ∀ a : List Char, strLtB a a = false := by
  intro a
  induction a with
  | nil => rfl
  | cons c a ih => simp [strLtB, ih]

theorem strLtB_ne {a b : List Char} (h : strLtB a b = true) : a ≠ b := by
  intro he
  rw [he, strLtB_irrefl] at h
  exact Bool.false_ne_true h

theorem strLtB_append_left : ∀ (p a b : List Char),
    strLtB (p ++ a) (p ++ b) = strLtB a b := by
  intro p a b
  induction p with
  | nil => rfl
  | cons c p ih => simp [strLtB, ih]

theorem strLtB_append_right : ∀ (a b s : List Char), a.length = b.length →
    strLtB a b = true → strLtB (a ++ s) (b ++ s) = true := by
  intro a
  induction a with
  | nil =>
    intro b s hlen h
    cases b with
    | nil => rw [strLtB] at h; exact absurd h Bool.false_ne_true
    | cons x xs => simp at hlen
  | cons c a ih =>
    intro b s hlen h
    cases b with
    | nil => simp at hlen
    | cons x xs =>
      simp only [List.cons_append]
      rw [strLtB] at h ⊢
      by_cases h1 : c.toNat < x.toNat
      · simp [h1]
      · simp only [if_neg h1] at h ⊢
        by_cases h2 : x.toNat < c.toNat
        · simp [h2] at h
        · simp only [if_neg h2] at h ⊢
          exact ih xs s (by simpa using hlen) h

theorem backupName_data (t : String) :
    (backupName t).data = backupStem.data ++ (t.data ++ ".db".data) := by
  rw [backupName, strData_append, strData_append, List.append_assoc]

/-- For equal-length stamps the backup file names compare like the
stamps: the fixed-width timestamp makes lexicographic order on names
chronological. -/
theorem backupName_lt {t t' : String} (hlen : t.length = t'.length)
    (h : strLtB t.data t'.data = true) :
    strLtB (backupName t).data (backupName t').data = true := by
  rw [backupName_data, backupName_data, strLtB_append_left]
  exact strLtB_append_right t.data t'.data ".db".data hlen h

theorem isPrefixB_self_append : ∀ (p x : List Char), isPrefixB p (p ++ x) = true := by
  intro p x
  induction p with
  | nil => rfl
  | cons c p ih => simp [isPrefixB, ih]

/-- Every generated backup name matches the rotation filter. -/
theorem isBackupFile_backupName (t : String) : isBackupFile (backupName t) = true := by
  rw [isBackupFile, backupName_data]
  exact isPrefixB_self_append _ _

theorem backupName_ne {t t' : String} (hlen : t.length = t'.length)
    (h : strLtB t.data t'.data = true) : backupName t ≠ backupName t' := by
  intro he
  exact strLtB_ne (backupName_lt hlen h) (congrArg String.data he)

theorem insertStr_length (x : String) : ∀ l, (insertStr x l).length = l.length + 1 := by
  intro l
  induction l with
  | nil => rfl
  | cons y l ih =>
    by_cases h : strLtB x.data y.data
    · simp [insertStr, h]
    · simp [insertStr, h, ih]

theorem sortStr_length : ∀ l, (sortStr l).length = l.length := by
  intro l
  induction l with
  | nil => rfl
  | cons x l ih => simp [sortStr, insertStr_length, ih]

/-- Python sorted leaves an already strictly sorted list unchanged. -/
theorem sortStr_sorted_id : ∀ l : List String,
    l.Pairwise (fun a b => strLtB a.data b.data = true) → sortStr l = l := by
  intro l
  induction l with
  | nil => intro _; rfl
  | cons x l ih =>
    intro h
    rw [List.pairwise_cons] at h
    rw [sortStr, ih h.2]
    cases l with
    | nil => rfl
    | cons y l' =>
      have hy : strLtB x.data y.data = true := h.1 y (List.mem_cons_self _ _)
      simp [insertStr, hy]

theorem addFile_not_mem (files : List String) (f : String) (h : f ∉ files) :
    addFile files f = files ++ [f] := by
  simp [addFile, h]

theorem filter_backup_clean (base : List String)
    (hclean : ∀ f ∈ base, isBackupFile f = false)
    (ns : List String) (hns : ∀ n ∈ ns, isBackupFile n = true) :
    (base ++ ns).filter isBackupFile = ns := by
  rw [List.filter_append, List.filter_eq_self.mpr hns]
  have hnil : base.filter isBackupFile = [] := by
    simp only [List.filter_eq_nil_iff]
    intro a ha
    simp [hclean a ha]
  rw [hnil, List.nil_append]

/-- With at most five matching files the rotation deletes nothing. -/
theorem rotateBackups_le5 (files : List String)
    (h : (files.filter isBackupFile).length ≤ 5) : rotateBackups files = files := by
  have hlen : (sortStr (files.filter isBackupFile)).length - 5 = 0 := by
    rw [sortStr_length]
    omega
  show files.filter
      (fun f => !(((sortStr (files.filter isBackupFile)).take
        ((sortStr (files.filter isBackupFile)).length - 5)).contains f)) = files
  rw [hlen, List.take_zero]
  exact List.filter_eq_self.mpr (fun a _ => rfl)

theorem strLtB_ne_str {a b : String} (h : strLtB a.data b.data = true) : a ≠ b :=
  fun he => strLtB_ne h (congrArg String.data he)

/-- One backup invocation while at most four backups are present: the
new file is added and nothing is deleted. -/
theorem backup_step_small (dd : BackupDir) (ds : List BackupDir)
    (base ns : List String) (t : String)
    (hw : dd.writable = true) (hfiles : dd.files = base ++ ns)
    (hclean : ∀ f ∈ base, isBackupFile f = false)
    (hns : ∀ n ∈ ns, isBackupFile n = true)
    (hnot : backupName t ∉ base ++ ns)
    (hcount : ns.length ≤ 4) :
    createBackupFS t (dd :: ds)
      = { dd with files := base ++ (ns ++ [backupName t]) } :: ds := by
  simp only [createBackupFS, hw, if_pos]
  rw [hfiles, addFile_not_mem _ _ hnot, List.append_assoc]
  rw [rotateBackups_le5]
  rw [filter_backup_clean base hclean]
  · simp
    omega
  · intro n hn
    rcases List.mem_append.mp hn with h | h
    · exact hns n h
    · rw [List.mem_singleton.mp h]
      exact isBackupFile_backupName t

/-- With exactly six matching files, all newer than anything else ever
placed there, the rotation deletes exactly the oldest one. -/
theorem rotateBackups_six (base : List String) (n1 n2 n3 n4 n5 n6 : String)
    (hclean : ∀ f ∈ base, isBackupFile f = false)
    (hb : ∀ n ∈ [n1, n2, n3, n4, n5, n6], isBackupFile n = true)
    (hpw : ([n1, n2, n3, n4, n5, n6] : List String).Pairwise
      (fun a b => strLtB a.data b.data = true)) :
    rotateBackups (base ++ [n1, n2, n3, n4, n5, n6]) = base ++ [n2, n3, n4, n5, n6] := by
  have hfil : (base ++ [n1, n2, n3, n4, n5, n6]).filter isBackupFile
      = [n1, n2, n3, n4, n5, n6] := filter_backup_clean base hclean _ hb
  have hsorted : sortStr [n1, n2, n3, n4, n5, n6] = [n1, n2, n3, n4, n5, n6] :=
    sortStr_sorted_id _ hpw
  have hne : ∀ y ∈ [n2, n3, n4, n5, n6], y ≠ n1 := by
    rw [List.pairwise_cons] at hpw
    intro y hy he
    exact strLtB_ne_str (hpw.1 y (by simpa using hy)) he.symm
  show (base ++ [n1, n2, n3, n4, n5, n6]).filter
      (fun f => !(((sortStr ((base ++ [n1, n2, n3, n4, n5, n6]).filter isBackupFile)).take
        ((sortStr ((base ++ [n1, n2, n3, n4, n5, n6]).filter isBackupFile)).length - 5)).contains f))
      = base ++ [n2, n3, n4, n5, n6]
  rw [hfil, hsorted]
  have htake : ([n1, n2, n3, n4, n5, n6] : List String).take
      (([n1, n2, n3, n4, n5, n6] : List String).length - 5) = [n1] := rfl
  rw [htake, List.filter_append]
  have hbase : base.filter (fun f => !([n1].contains f)) = base := by
    apply List.filter_eq_self.mpr
    intro a ha
    have hne1 : a ≠ n1 := by
      intro he
      have h1 := hclean a ha
      rw [he] at h1
      rw [hb n1 (by simp)] at h1
      simp at h1
    simp [hne1]
  have hsix : ([n1, n2, n3, n4, n5, n6] : List String).filter
      (fun f => !([n1].contains f)) = [n2, n3, n4, n5, n6] := by
    have h2 := hne n2 (by simp)
    have h3 := hne n3 (by simp)
    have h4 := hne n4 (by simp)
    have h5 := hne n5 (by simp)
    have h6 := hne n6 (by simp)
    simp [List.filter_cons, h2, h3, h4, h5, h6]
  rw [hbase, hsix]

set_option maxHeartbeats 1000000 in
/-- C4: six successive backup invocations with strictly increasing
fixed-width timestamps against a writable first candidate directory (that
starts with no file matching the backup pattern) leave exactly five
backup files, namely the five newest, the oldest having been removed. -/
theorem c4_backup_rotation (d : BackupDir) (ds : List BackupDir) (tss : List String)
    (hw : d.writable = true)
    (hclean : ∀ f ∈ d.files, isBackupFile f = false)
    (hlen6 : tss.length = 6)
    (hts : ∀ t ∈ tss, t.length = 15)
    (hsorted : tss.Pairwise (fun a b => strLtB a.data b.data = true)) :
    runBackups tss (d :: ds)
        = { d with files := d.files ++ (tss.drop 1).map backupName } :: ds
      ∧ (d.files ++ (tss.drop 1).map backupName).filter isBackupFile
          = (tss.drop 1).map backupName
      ∧ ((tss.drop 1).map backupName).length = 5 := by
  have hpwN : (tss.map backupName).Pairwise (fun a b => strLtB a.data b.data = true) := by
    apply List.pairwise_map.mpr
    apply List.Pairwise.imp_of_mem ?_ hsorted
    intro a b ha hb h
    exact backupName_lt (by rw [hts a ha, hts b hb]) h
  obtain ⟨t1, t2, t3, t4, t5, t6, rfl⟩ :
      ∃ a b c x y z, tss = [a, b, c, x, y, z] := by
    rcases tss with _ | ⟨a, _ | ⟨b, _ | ⟨c, _ | ⟨x, _ | ⟨y, _ | ⟨z, _ | ⟨w, rest⟩⟩⟩⟩⟩⟩⟩ <;>
      simp only [List.length_cons, List.length_nil] at hlen6 <;>
      first
        | exact ⟨_, _, _, _, _, _, rfl⟩
        | omega
  simp only [List.map_cons, List.map_nil] at hpwN
  have hpwN' := hpwN
  simp only [List.pairwise_cons, List.mem_cons, List.not_mem_nil] at hpwN'
  obtain ⟨h1, h2, h3, h4, h5, -⟩ := hpwN'
  have hbackup : ∀ n ∈ [backupName t1, backupName t2, backupName t3,
      backupName t4, backupName t5, backupName t6], isBackupFile n = true := by
    intro n hn
    simp only [List.mem_cons, List.not_mem_nil, or_false] at hn
    rcases hn with rfl | rfl | rfl | rfl | rfl | rfl <;> exact isBackupFile_backupName _
  have hnotbase : ∀ t : String, backupName t ∉ d.files := by
    intro t hmem
    have hc := hclean _ hmem
    rw [isBackupFile_backupName] at hc
    exact Bool.false_ne_true hc.symm
  have ne21 : backupName t2 ≠ backupName t1 :=
    fun he => strLtB_ne_str (h1 (backupName t2) (by tauto)) he.symm
  have ne31 : backupName t3 ≠ backupName t1 :=
    fun he => strLtB_ne_str (h1 (backupName t3) (by tauto)) he.symm
  have ne41 : backupName t4 ≠ backupName t1 :=
    fun he => strLtB_ne_str (h1 (backupName t4) (by tauto)) he.symm
  have ne51 : backupName t5 ≠ backupName t1 :=
    fun he => strLtB_ne_str (h1 (backupName t5) (by tauto)) he.symm
  have ne32 : backupName t3 ≠ backupName t2 :=
    fun he => strLtB_ne_str (h2 (backupName t3) (by tauto)) he.symm
  have ne42 : backupName t4 ≠ backupName t2 :=
    fun he => strLtB_ne_str (h2 (backupName t4) (by tauto)) he.symm
  have ne52 : backupName t5 ≠ backupName t2 :=
    fun he => strLtB_ne_str (h2 (backupName t5) (by tauto)) he.symm
  have ne43 : backupName t4 ≠ backupName t3 :=
    fun he => strLtB_ne_str (h3 (backupName t4) (by tauto)) he.symm
  have ne53 : backupName t5 ≠ backupName t3 :=
    fun he => strLtB_ne_str (h3 (backupName t5) (by tauto)) he.symm
  have ne54 : backupName t5 ≠ backupName t4 :=
    fun he => strLtB_ne_str (h4 (backupName t5) (by tauto)) he.symm
  have hs1 : createBackupFS t1 (d :: ds)
      = { d with files := d.files ++ [backupName t1] } :: ds := by
    have := backup_step_small d ds d.files [] t1 hw (by simp) hclean
      (by simp) (by simp [hnotbase t1]) (by simp)
    simpa using this
  have hs2 : createBackupFS t2 ({ d with files := d.files ++ [backupName t1] } :: ds)
      = { d with files := d.files ++ [backupName t1, backupName t2] } :: ds := by
    have := backup_step_small { d with files := d.files ++ [backupName t1] } ds
      d.files [backupName t1] t2 hw rfl hclean
      (by intro n hn; rw [List.mem_singleton.mp hn]; exact isBackupFile_backupName _)
      (by simp [hnotbase t2, ne21]) (by simp)
    simpa using this
  have hs3 : createBackupFS t3
      ({ d with files := d.files ++ [backupName t1, backupName t2] } :: ds)
      = { d with files := d.files ++ [backupName t1, backupName t2, backupName t3] } :: ds := by
    have := backup_step_small
      { d with files := d.files ++ [backupName t1, backupName t2] } ds
      d.files [backupName t1, backupName t2] t3 hw rfl hclean
      (by intro n hn
          rcases List.mem_cons.mp hn with rfl | hn
          · exact isBackupFile_backupName _
          · rw [List.mem_singleton.mp hn]; exact isBackupFile_backupName _)
      (by simp [hnotbase t3, ne31, ne32]) (by simp)
    simpa using this
  have hs4 : createBackupFS t4
      ({ d with files := d.files ++ [backupName t1, backupName t2, backupName t3] } :: ds)
      = { d with files := d.files ++ [backupName t1, backupName t2, backupName t3,
          backupName t4] } :: ds := by
    have := backup_step_small
      { d with files := d.files ++ [backupName t1, backupName t2, backupName t3] } ds
      d.files [backupName t1, backupName t2, backupName t3] t4 hw rfl hclean
      (by intro n hn
          simp only [List.mem_cons, List.not_mem_nil, or_false] at hn
          rcases hn with rfl | rfl | rfl <;> exact isBackupFile_backupName _)
      (by simp [hnotbase t4, ne41, ne42, ne43]) (by simp)
    simpa using this
  have hs5 : createBackupFS t5
      ({ d with files := d.files ++ [backupName t1, backupName t2, backupName t3,
          backupName t4] } :: ds)
      = { d with files := d.files ++ [backupName t1, backupName t2, backupName t3,
          backupName t4, backupName t5] } :: ds := by
    have := backup_step_small
      { d with files := d.files ++ [backupName t1, backupName t2, backupName t3,
        backupName t4] } ds
      d.files [backupName t1, backupName t2, backupName t3, backupName t4] t5 hw rfl hclean
      (by intro n hn
          simp only [List.mem_cons, List.not_mem_nil, or_false] at hn
          rcases hn with rfl | rfl | rfl | rfl <;> exact isBackupFile_backupName _)
      (by simp [hnotbase t5, ne51, ne52, ne53, ne54]) (by simp)
    simpa using this
  have hs6 : createBackupFS t6
      ({ d with files := d.files ++ [backupName t1, backupName t2, backupName t3,
          backupName t4, backupName t5] } :: ds)
      = { d with files := d.files ++ [backupName t2, backupName t3, backupName t4,
          backupName t5, backupName t6] } :: ds := by
    have hmem6 : backupName t6 ∉ d.files ++ [backupName t1, backupName t2,
        backupName t3, backupName t4, backupName t5] := by
      intro hn
      rcases List.mem_append.mp hn with hn | hn
      · exact hnotbase t6 hn
      · simp only [List.mem_cons, List.not_mem_nil, or_false] at hn
        rcases hn with he | he | he | he | he
        · exact strLtB_ne_str (h1 (backupName t6) (by tauto)) he.symm
        · exact strLtB_ne_str (h2 (backupName t6) (by tauto)) he.symm
        · exact strLtB_ne_str (h3 (backupName t6) (by tauto)) he.symm
        · exact strLtB_ne_str (h4 (backupName t6) (by tauto)) he.symm
        · exact strLtB_ne_str (h5 (backupName t6) (by tauto)) he.symm
    have hra : d.files ++ [backupName t1, backupName t2, backupName t3,
        backupName t4, backupName t5] ++ [backupName t6]
        = d.files ++ [backupName t1, backupName t2, backupName t3,
        backupName t4, backupName t5, backupName t6] := by simp
    simp only [createBackupFS, hw, if_pos]
    rw [addFile_not_mem _ _ hmem6, hra,
      rotateBackups_six d.files _ _ _ _ _ _ hclean hbackup hpwN]
  refine ⟨?_, ?_, rfl⟩
  · show createBackupFS t6 (createBackupFS t5 (createBackupFS t4 (createBackupFS t3
      (createBackupFS t2 (createBackupFS t1 (d :: ds)))))) = _
    rw [hs1, hs2, hs3, hs4, hs5, hs6]
    rfl
  · exact filter_backup_clean d.files hclean _ (by
      intro n hn
      simp only [List.drop, List.map_cons, List.map_nil, List.mem_cons,
        List.not_mem_nil, or_false] at hn
      rcases hn with rfl | rfl | rfl | rfl | rfl <;> exact isBackupFile_backupName _)

/-- Witness for C4 at six concrete timestamps. -/
theorem c4_backup_rotation_witness :
    ((⟨true, []⟩ : BackupDir).writable = true)
    ∧ (∀ f ∈ (⟨true, []⟩ : BackupDir).files, isBackupFile f = false)
    ∧ c4Stamps.length = 6
    ∧ (∀ t ∈ c4Stamps, t.length = 15)
    ∧ c4Stamps.Pairwise (fun a b => strLtB a.data b.data = true)
    ∧ (runBackups c4Stamps [⟨true, []⟩]
        = { (⟨true, []⟩ : BackupDir) with
            files := (⟨true, []⟩ : BackupDir).files ++ (c4Stamps.drop 1).map backupName } :: []
      ∧ ((⟨true, []⟩ : BackupDir).files ++ (c4Stamps.drop 1).map backupName).filter isBackupFile
          = (c4Stamps.drop 1).map backupName
      ∧ ((c4Stamps.drop 1).map backupName).length = 5) :=
  ⟨rfl, by simp, by decide, by decide, by decide,
    c4_backup_rotation ⟨true, []⟩ [] c4Stamps rfl (by simp) (by decide) (by decide) (by decide)⟩

/-! ## Claim C5 -/

/-- C5: the backup routine never fails the triggering request.  First
conjunct: with no writable candidate directory the routine leaves the file
system unchanged (the failure is logged and swallowed).  Second conjunct:
POST /api/profiles after a successful write answers 200 ok whatever the
state of the backup directories.  Third conjunct: POST /api/backup answers
200 ok whatever the state of the backup directories.  The bare except
around the whole routine is embedded by `createBackupFS` being a total
function whose result feeds no response. -/
theorem c5_backup_never_fails_request :
    (∀ (ts : String) (dirs : List BackupDir), (∀ dd ∈ dirs, dd.writable = false) →
      createBackupFS ts dirs = dirs)
    ∧ (∀ (now : Nat) (ts : String) (input : ProfileInput) (db : DB)
        (fs : List BackupDir) (role : String), input.user_role = some role →
      (saveUserProfile now ts input (some db) fs).2.2.ok = true
        ∧ (saveUserProfile now ts input (some db) fs).2.2.status = 200)
    ∧ (∀ (ts : String) (db : DB) (fs : List BackupDir),
      (createBackupRoute ts (some db) fs).2.ok = true
        ∧ (createBackupRoute ts (some db) fs).2.status = 200) := by
  refine ⟨?_, ?_, ?_⟩
  · intro ts dirs h
    induction dirs with
    | nil => rfl
    | cons dd ds ih =>
      have hw := h dd (List.mem_cons_self _ _)
      simp [createBackupFS, hw, ih (fun z hz => h z (List.mem_cons_of_mem _ hz))]
  · intro now ts input db fs role hr
    simp [saveUserProfile, hr]
  · intro ts db fs
    exact ⟨rfl, rfl⟩

/-- Witness for C5 on a file system with a single unwritable directory. -/
theorem c5_backup_never_fails_request_witness :
    (∀ dd ∈ [(⟨false, ["x"]⟩ : BackupDir)], dd.writable = false)
    ∧ createBackupFS "t" [(⟨false, ["x"]⟩ : BackupDir)] = [⟨false, ["x"]⟩]
    ∧ c1Input.user_role = some "student"
    ∧ (saveUserProfile 0 "t" c1Input (some ({} : DB)) [⟨false, ["x"]⟩]).2.2.ok = true
    ∧ (createBackupRoute "t" (some ({} : DB)) [⟨false, ["x"]⟩]).2.ok = true :=
  ⟨by decide, c5_backup_never_fails_request.1 "t" _ (by decide), rfl,
   (c5_backup_never_fails_request.2.1 0 "t" c1Input {} [⟨false, ["x"]⟩] "student" rfl).1,
   (c5_backup_never_fails_request.2.2 "t" {} [⟨false, ["x"]⟩]).1⟩

/-! ## Claim C9 -/

/-- C9: every DatabaseClient method, on any transport-level failure
(connection error, non-2xx status raised by raise_for_status) or
response-decoding failure, returns the ok-false error envelope holding the
exception text instead of raising. -/
theorem c9_client_error_envelope (o : HttpOutcome) (m : String)
    (hfail : failMsg o = some m) :
    ∀ (j : JVal) (uid pid : String) (lim days : Nat),
      clientHealthCheck o = errEnvelope m
      ∧ clientSaveUser j o = errEnvelope m
      ∧ clientGetUser uid o = errEnvelope m
      ∧ clientGetUserProfiles uid o = errEnvelope m
      ∧ clientSaveUserProfile j o = errEnvelope m
      ∧ clientGetUserProfile pid o = errEnvelope m
      ∧ clientUpdateUserProfile pid j o = errEnvelope m
      ∧ clientSaveChatMessage j o = errEnvelope m
      ∧ clientGetChatMessages pid lim o = errEnvelope m
      ∧ clientSaveUsageStat j o = errEnvelope m
      ∧ clientGetUsageStats days o = errEnvelope m
      ∧ clientCreateBackup o = errEnvelope m := by
  intro j uid pid lim days
  cases o with
  | success b => simp [failMsg] at hfail
  | connError msg =>
    simp only [failMsg, Option.some.injEq] at hfail
    subst hfail
    exact ⟨rfl, rfl, rfl, rfl, rfl, rfl, rfl, rfl, rfl, rfl, rfl, rfl⟩
  | httpError msg =>
    simp only [failMsg, Option.some.injEq] at hfail
    subst hfail
    exact ⟨rfl, rfl, rfl, rfl, rfl, rfl, rfl, rfl, rfl, rfl, rfl, rfl⟩
  | decodeError msg =>
    simp only [failMsg, Option.some.injEq] at hfail
    subst hfail
    exact ⟨rfl, rfl, rfl, rfl, rfl, rfl, rfl, rfl, rfl, rfl, rfl, rfl⟩

/-- Witness for C9 at a concrete connection failure. -/
theorem c9_client_error_envelope_witness :
    failMsg (HttpOutcome.connError "boom") = some "boom"
    ∧ clientHealthCheck (.connError "boom") = errEnvelope "boom"
    ∧ clientCreateBackup (.connError "boom") = errEnvelope "boom" :=
  ⟨rfl,
   (c9_client_error_envelope (.connError "boom") "boom" rfl JVal.null "u" "p" 1 1).1,
   (c9_client_error_envelope (.connError "boom") "boom" rfl
     JVal.null "u" "p" 1 1).2.2.2.2.2.2.2.2.2.2.2⟩

/-! ## Claim C10 -/

/-- C10 is refuted by the code as written: `database_client.py` never
imports `os`, so constructing a DatabaseClient with no base_url (or any
falsy base_url) evaluates `os.getenv` and raises NameError instead of
succeeding with the environment-driven default; a truthy explicit base_url
short-circuits the `or` and is stored unchanged. -/
theorem c10_init_raises_name_error :
    (∀ env : String → Option String,
      clientInitBaseUrl none env = .error (.nameError "os"))
    ∧ (∀ env : String → Option String,
      clientInitBaseUrl (some "https://example.org") env = .ok "https://example.org") :=
  ⟨fun _ => rfl, fun _ => rfl⟩

end StudentDB
